import Mathlib

/-!
# Verification of the SmartGlove GATT codec and log accumulator

Shallow embedding of the two JavaScript sources (`src/glove.js` and the
unnamed second copy `src/unnamed/part_000`): the characteristic
presentation-descriptor decoder, the value codec, the value formatter, the
unit lookup, the characteristic registry and the CSV log accumulator.

JavaScript numbers are idealised as exact rationals (`ℚ`) extended with the
IEEE special values `Infinity`, `-Infinity` and `NaN`; machine bytes are
naturals reduced mod 256 at each read, exactly as a `DataView` accessor
yields them.  JavaScript `Map` objects are embedded as association lists
with the insertion-order `set` semantics of the ECMAScript specification.
-/

/-! ## JavaScript value model -/

/-- A JavaScript number/boolean value as produced by the codec: an exact
rational for finite numbers, plus the IEEE special values. -/
inductive JSVal where
  | bool (b : Bool)
  | num (q : ℚ)
  | inf (neg : Bool)
  | nan
  deriving DecidableEq

/-- Result of `formatValue`: either the untouched input value (Boolean
passthrough branch) or a rendered string. -/
inductive JSDisplay where
  | val (v : JSVal)
  | str (s : String)
  deriving DecidableEq

/-! ## DataView accessors (little-endian byte-buffer reads)

A buffer is a list of bytes; each read reduces the stored value mod 256,
which is the identity on genuine bytes. -/

def byteAt (dataView : List ℕ) (i : ℕ) : ℕ := dataView.getD i 0 % 256

/-- `DataView.getUint8`; the endianness argument is accepted and ignored,
as in JavaScript. -/
def getUint8 (dataView : List ℕ) (off : ℕ) (_le : Bool := false) : ℕ :=
  byteAt dataView off

/-- `DataView.getInt8`: two's-complement signed read of one byte. -/
def getInt8 (dataView : List ℕ) (off : ℕ) (_le : Bool := false) : ℤ :=
  let u := byteAt dataView off
  if u < 128 then (u : ℤ) else (u : ℤ) - 256

def getUint16 (dataView : List ℕ) (off : ℕ) (le : Bool) : ℕ :=
  if le then byteAt dataView off + 256 * byteAt dataView (off + 1)
  else 256 * byteAt dataView off + byteAt dataView (off + 1)

def getInt16 (dataView : List ℕ) (off : ℕ) (le : Bool) : ℤ :=
  let u := getUint16 dataView off le
  if u < 2 ^ 15 then (u : ℤ) else (u : ℤ) - 2 ^ 16

def getUint32 (dataView : List ℕ) (off : ℕ) (le : Bool) : ℕ :=
  if le then
    byteAt dataView off + 256 * byteAt dataView (off + 1) +
      65536 * byteAt dataView (off + 2) + 16777216 * byteAt dataView (off + 3)
  else
    16777216 * byteAt dataView off + 65536 * byteAt dataView (off + 1) +
      256 * byteAt dataView (off + 2) + byteAt dataView (off + 3)

def getInt32 (dataView : List ℕ) (off : ℕ) (le : Bool) : ℤ :=
  let u := getUint32 dataView off le
  if u < 2 ^ 31 then (u : ℤ) else (u : ℤ) - 2 ^ 32

/-- The numeric value of an IEEE-754 binary32 bit pattern, as a `JSVal`. -/
def float32FromBits (bits : ℕ) : JSVal :=
  let sign : ℕ := bits / 2 ^ 31 % 2
  let ex : ℕ := bits / 2 ^ 23 % 256
  let frac : ℕ := bits % 2 ^ 23
  if ex = 255 then
    if frac = 0 then JSVal.inf (sign = 1) else JSVal.nan
  else
    let mag : ℚ :=
      if ex = 0 then (frac : ℚ) * (2 : ℚ) ^ (-(149 : ℤ))
      else ((2 ^ 23 + frac : ℕ) : ℚ) * (2 : ℚ) ^ ((ex : ℤ) - 150)
    JSVal.num (if sign = 1 then -mag else mag)

def getFloat32 (dataView : List ℕ) (off : ℕ) (le : Bool) : JSVal :=
  float32FromBits (getUint32 dataView off le)

/-- JavaScript multiplication of a codec value by a finite positive scale
factor (the `10 ** exponent` scale is always finite and positive). -/
def jsMulPos (v : JSVal) (q : ℚ) : JSVal :=
  match v with
  | JSVal.bool b => JSVal.num ((if b then 1 else 0) * q)
  | JSVal.num a => JSVal.num (a * q)
  | JSVal.inf n => JSVal.inf n
  | JSVal.nan => JSVal.nan

/-! ## JavaScript `Map` as an insertion-ordered association list -/

/-- `Map.set`: overwrite in place when the key exists, append otherwise. -/
def mapSet {β : Type} : List (String × β) → String → β → List (String × β)
  | [], k, v => [(k, v)]
  | (k', v') :: rest, k, v =>
      if k = k' then (k, v) :: rest else (k', v') :: mapSet rest k v

/-- `Map.get`: value at the first matching key. -/
def mapGet {β : Type} : List (String × β) → String → Option β
  | [], _ => none
  | (k', v') :: rest, k => if k = k' then some v' else mapGet rest k

/-- `Map.has`. -/
def mapHas {β : Type} (m : List (String × β)) (k : String) : Bool :=
  (mapGet m k).isSome

/-- Key sequence in insertion order. -/
def mapKeys {β : Type} (m : List (String × β)) : List String :=
  m.map Prod.fst

/-! ## Number-to-string rendering (`Number.prototype.toFixed`)

Embeds the ECMAScript algorithm over exact rationals: after extracting the
sign, a value of at least `10^21` falls back to `ToString` (exponential
notation); below that, pick the integer `n` minimising `|n / 10^f - x|`,
ties towards the larger `n`, then print `n` with a decimal point inserted
`f` digits from the right. -/

def digitChar (d : ℕ) : Char := Char.ofNat (48 + d)

/-- Fuel-driven decimal digit rendering (most significant digit first). -/
def toCharsCore : ℕ → ℕ → List Char → List Char
  | 0, _, acc => acc
  | fuel + 1, n, acc =>
      if n < 10 then digitChar (n % 10) :: acc
      else toCharsCore fuel (n / 10) (digitChar (n % 10) :: acc)

def natToChars (n : ℕ) : List Char := toCharsCore (n + 1) n []

/-- Digit list of `n` left-padded with `'0'` to length at least `f + 1`,
then split with a decimal point `f` digits from the right. -/
def renderFixed (n : ℕ) (f : ℕ) : String :=
  if f = 0 then String.mk (natToChars n)
  else
    let ds := natToChars n
    let padded := List.replicate (f + 1 - ds.length) '0' ++ ds
    String.mk (padded.take (padded.length - f) ++ '.' :: padded.drop (padded.length - f))

/-- Strip trailing decimal zeros from a nonzero natural (fuel-driven; the
number itself bounds the divisions needed). -/
def stripZeros : ℕ → ℕ → ℕ
  | 0, n => n
  | fuel + 1, n => if n ≠ 0 ∧ n % 10 = 0 then stripZeros fuel (n / 10) else n

/-- The significant digits of `n`: `n` with its trailing zeros removed. -/
def sigDigits (n : ℕ) : ℕ := stripZeros n n

/-- ECMAScript `ToString` for the numbers reaching `toFixed`'s large
branch: every IEEE double of magnitude at least `10^21` is an integer (the
threshold exceeds `2^53`), so on the faithful domain the floor below is
exact.  With `s` the significant digits and `n` the digit count of the
integer, the spec's `n > 21` case renders `d.dd…d e+(n-1)` (no decimal
point when `s` has a single digit). -/
def jsToStringLarge (x : ℚ) : String :=
  let m : ℕ := (⌊x⌋).toNat
  let ds := natToChars (sigDigits m)
  let nd := (natToChars m).length
  match ds with
  | [] => "0"
  | [c] => String.mk [c] ++ "e+" ++ String.mk (natToChars (nd - 1))
  | c :: rest => String.mk [c] ++ "." ++ String.mk rest ++ "e+" ++ String.mk (natToChars (nd - 1))

/-- The sign-free body of `toFixed`: `ToString` at or above `10^21`,
fixed-point rendering below. -/
def toFixedPos (x : ℚ) (f : ℕ) : String :=
  if (10 : ℚ) ^ (21 : ℕ) ≤ x then jsToStringLarge x
  else renderFixed (⌊x * 10 ^ f + 1 / 2⌋).toNat f

/-- `x.toFixed(f)` for a finite number `x`. -/
def toFixedQ (x : ℚ) (f : ℕ) : String :=
  if x < 0 then "-" ++ toFixedPos (-x) f else toFixedPos x f

/-- `v.toFixed(f)` on the extended value domain; `toFixed` on a
non-number (the Boolean case) throws a `TypeError`, embedded as `none`. -/
def jsToFixed (v : JSVal) (f : ℕ) : Option String :=
  match v with
  | JSVal.bool _ => none
  | JSVal.num q => some (toFixedQ q f)
  | JSVal.inf neg => some (if neg then "-Infinity" else "Infinity")
  | JSVal.nan => some "NaN"

/-! ## Shared constants of both sources -/

def IS_LITTLE_ENDIAN : Bool := true
def PRES_DESCRIPTOR_LENGTH : ℕ := 7

def BLE_FORMAT_BOOLEAN : ℕ := 0x01
def BLE_FORMAT_UINT8 : ℕ := 0x04
def BLE_FORMAT_UINT16 : ℕ := 0x06
def BLE_FORMAT_UINT32 : ℕ := 0x08
def BLE_FORMAT_SINT8 : ℕ := 0x0C
def BLE_FORMAT_SINT16 : ℕ := 0x0E
def BLE_FORMAT_SINT32 : ℕ := 0x10
def BLE_FORMAT_FLOAT32 : ℕ := 0x14

/-- Decoded characteristic presentation descriptor. -/
structure PresInfo where
  format : ℕ
  exponent : ℤ
  unit : ℕ
  deriving DecidableEq

namespace Glove

/-! ### `src/glove.js` codec -/

def BLE_UNITS : List (ℕ × String) :=
  [(0x2700, ""),
   (0x2713, "m/s2"),
   (0x2720, "rad"),
   (0x2724, "Pa"),
   (0x2728, "V"),
   (0x272D, "uT"),
   (0x272F, "Â°C"),
   (0x2743, "rad/s"),
   (0x27AD, "%"),
   (0x27C4, "ppm"),
   (0x27C5, "ppb")]

def bleUnitsGet : List (ℕ × String) → ℕ → Option String
  | [], _ => none
  | (k, v) :: rest, u => if u = k then some v else bleUnitsGet rest u

def readPresInfo (dataView : List ℕ) : Option PresInfo :=
  if dataView.length < PRES_DESCRIPTOR_LENGTH then none
  else
    some { format := getUint8 dataView 0 IS_LITTLE_ENDIAN
           exponent := getInt8 dataView 1 IS_LITTLE_ENDIAN
           unit := getUint16 dataView 2 IS_LITTLE_ENDIAN }

/-- The `switch` of `readValue`: required byte length and decode function
per format code; `none` is the `default` branch. -/
def formatSpec (format : ℕ) : Option (ℕ × (List ℕ → JSVal)) :=
  if format = BLE_FORMAT_BOOLEAN then
    some (1, fun x => JSVal.bool (getUint8 x 0 IS_LITTLE_ENDIAN ≠ 0))
  else if format = BLE_FORMAT_UINT8 then
    some (1, fun x => JSVal.num (getUint8 x 0 IS_LITTLE_ENDIAN))
  else if format = BLE_FORMAT_UINT16 then
    some (2, fun x => JSVal.num (getUint16 x 0 IS_LITTLE_ENDIAN))
  else if format = BLE_FORMAT_UINT32 then
    some (4, fun x => JSVal.num (getUint32 x 0 IS_LITTLE_ENDIAN))
  else if format = BLE_FORMAT_SINT8 then
    some (1, fun x => JSVal.num (getInt8 x 0 IS_LITTLE_ENDIAN))
  else if format = BLE_FORMAT_SINT16 then
    some (2, fun x => JSVal.num (getInt16 x 0 IS_LITTLE_ENDIAN))
  else if format = BLE_FORMAT_SINT32 then
    some (4, fun x => JSVal.num (getInt32 x 0 IS_LITTLE_ENDIAN))
  else if format = BLE_FORMAT_FLOAT32 then
    some (4, fun x => getFloat32 x 0 IS_LITTLE_ENDIAN)
  else none

def readValue (dataView : List ℕ) (presInfo : PresInfo) : JSVal :=
  match formatSpec presInfo.format with
  | none => JSVal.num 0
  | some (length, decodeFunc) =>
      if dataView.length < length then JSVal.num 0
      else
        let rawVal := decodeFunc dataView
        if presInfo.format = BLE_FORMAT_BOOLEAN then rawVal
        else jsMulPos rawVal ((10 : ℚ) ^ presInfo.exponent)

/-- Clamp of `-exponent` into `[0, 100]`, exactly as the source's two `if`
statements compute it. -/
def numDecimals (exponent : ℤ) : ℕ :=
  (if -exponent < 0 then 0 else if -exponent > 100 then 100 else -exponent).toNat

def formatValue (val : JSVal) (presInfo : PresInfo) : Option JSDisplay :=
  if presInfo.format = BLE_FORMAT_BOOLEAN then some (JSDisplay.val val)
  else (jsToFixed val (numDecimals presInfo.exponent)).map JSDisplay.str

def getUnitString (presInfo : PresInfo) : String :=
  match bleUnitsGet BLE_UNITS presInfo.unit with
  | some s => s
  | none => ""

/-! ### `src/glove.js` registry and log accumulator -/

/-- A registry record (`characteristicInfo` object). -/
structure CharacteristicInfo where
  name : String
  serviceName : String
  lastEntry : String
  deriving DecidableEq

/-- Registration step of `initCharacteristics`: `characteristicList.set`
with a fresh record whose `lastEntry` is empty. -/
def registerCharacteristic (cl : List (String × CharacteristicInfo))
    (uuid name serviceName : String) : List (String × CharacteristicInfo) :=
  mapSet cl uuid { name := name, serviceName := serviceName, lastEntry := "" }

/-- `cacheValue`: update `lastEntry` of an existing record, no-op on an
unknown id. -/
def cacheValue (cl : List (String × CharacteristicInfo))
    (uuid valStr : String) : List (String × CharacteristicInfo) :=
  match mapGet cl uuid with
  | none => cl
  | some info => mapSet cl uuid { info with lastEntry := valStr }

/-- An event hitting the registry after discovery: a (re-)registration or
a value update from a notification. -/
inductive RegEvent where
  | register (uuid name serviceName : String)
  | update (uuid valStr : String)

def applyEvent (cl : List (String × CharacteristicInfo)) :
    RegEvent → List (String × CharacteristicInfo)
  | RegEvent.register uuid name serviceName => registerCharacteristic cl uuid name serviceName
  | RegEvent.update uuid valStr => cacheValue cl uuid valStr

def applyEvents (cl : List (String × CharacteristicInfo)) (evs : List RegEvent) :
    List (String × CharacteristicInfo) :=
  evs.foldl applyEvent cl

/-- One tick of `updateLog`: snapshot the registry's `lastEntry` values
into a fresh row map, then `log.set(timestamp, row)`. -/
def logSnapshot (cl : List (String × CharacteristicInfo)) : List (String × String) :=
  cl.foldl (fun acc p => mapSet acc p.1 p.2.lastEntry) []

def updateLog (cl : List (String × CharacteristicInfo))
    (lg : List (String × List (String × String))) (timestamp : String) :
    List (String × List (String × String)) :=
  mapSet lg timestamp (logSnapshot cl)

/-- The unit-row body of `printLog`'s first `forEach`: append the unit
label when the presentation cache holds the uuid, else append nothing. -/
def unitCell (presInfoCache : List (String × PresInfo)) (acc : String)
    (uuid : String) : String :=
  match mapGet presInfoCache uuid with
  | some presInfo => acc ++ getUnitString presInfo
  | none => acc

/-- The data-row body of `printLog`'s inner `forEach`: append the logged
value when the row holds the uuid, else append nothing. -/
def valueCell (row : List (String × String)) (acc : String) (uuid : String) : String :=
  match mapGet row uuid with
  | some v => acc ++ v
  | none => acc

/-- `printLog`: CSV rendering, faithful to the `forEach` string
accumulation of the source. -/
def printLog (cl : List (String × CharacteristicInfo))
    (presInfoCache : List (String × PresInfo))
    (lg : List (String × List (String × String))) : String :=
  let csv := cl.foldl (fun acc p => acc ++ p.2.serviceName ++ ",") "Timestamp,"
  let line2 := cl.foldl (fun acc p => acc ++ p.2.name ++ ",") ","
  let line3 := cl.foldl (fun acc p => unitCell presInfoCache acc p.1 ++ ",") ","
  let csv := csv ++ "\n" ++ line2 ++ "\n" ++ line3
  let csv := lg.foldl (fun acc entry =>
      cl.foldl (fun a p => valueCell entry.2 a p.1 ++ ",")
        (acc ++ "\n" ++ entry.1 ++ ",")) csv
  csv ++ "\n"

/-- The mutable page state touched by the log accumulator. -/
structure AppState where
  characteristicList : List (String × CharacteristicInfo)
  presInfoCache : List (String × PresInfo)
  log : List (String × List (String × String))
  timerActive : Bool
  deriving DecidableEq

/-- `logStart`: clear the log and start the periodic timer. -/
def logStart (s : AppState) : AppState :=
  { s with log := [], timerActive := true }

/-- `logStop`: cancel the timer; when the log is non-empty, render the CSV
and hand it to the export collaborator (`saveLog`), returned here as the
optional exported text. -/
def logStop (s : AppState) : AppState × Option String :=
  ({ s with timerActive := false },
   if s.log.length > 0 then some (printLog s.characteristicList s.presInfoCache s.log)
   else none)

end Glove

namespace P0

/-! ### `src/unnamed/part_000` codec (the second copy of the source) -/

def BLE_UNITS : List (ℕ × String) :=
  [(0x2700, ""),
   (0x2713, "m/s2"),
   (0x2720, "rad"),
   (0x2724, "Pa"),
   (0x2728, "V"),
   (0x272D, "uT"),
   (0x272F, "Â°C"),
   (0x2743, "rad/s"),
   (0x27AD, "%"),
   (0x27C4, "ppm"),
   (0x27C5, "ppb")]

def readPresInfo (dataView : List ℕ) : Option PresInfo :=
  if dataView.length < PRES_DESCRIPTOR_LENGTH then none
  else
    some { format := getUint8 dataView 0
           exponent := getInt8 dataView 1
           unit := getUint16 dataView 2 IS_LITTLE_ENDIAN }

def formatSpec (format : ℕ) : Option (ℕ × (List ℕ → JSVal)) :=
  if format = BLE_FORMAT_BOOLEAN then
    some (1, fun x => JSVal.bool (getUint8 x 0 ≠ 0))
  else if format = BLE_FORMAT_UINT8 then
    some (1, fun x => JSVal.num (getUint8 x 0))
  else if format = BLE_FORMAT_UINT16 then
    some (2, fun x => JSVal.num (getUint16 x 0 IS_LITTLE_ENDIAN))
  else if format = BLE_FORMAT_UINT32 then
    some (4, fun x => JSVal.num (getUint32 x 0 IS_LITTLE_ENDIAN))
  else if format = BLE_FORMAT_SINT8 then
    some (1, fun x => JSVal.num (getInt8 x 0))
  else if format = BLE_FORMAT_SINT16 then
    some (2, fun x => JSVal.num (getInt16 x 0 IS_LITTLE_ENDIAN))
  else if format = BLE_FORMAT_SINT32 then
    some (4, fun x => JSVal.num (getInt32 x 0 IS_LITTLE_ENDIAN))
  else if format = BLE_FORMAT_FLOAT32 then
    some (4, fun x => getFloat32 x 0 IS_LITTLE_ENDIAN)
  else none

def readValue (dataView : List ℕ) (presInfo : PresInfo) : JSVal :=
  match formatSpec presInfo.format with
  | none => JSVal.num 0
  | some (length, decodeFunc) =>
      if dataView.length < length then JSVal.num 0
      else
        let rawVal := decodeFunc dataView
        if presInfo.format = BLE_FORMAT_BOOLEAN then rawVal
        else jsMulPos rawVal ((10 : ℚ) ^ presInfo.exponent)

def numDecimals (exponent : ℤ) : ℕ :=
  (if -exponent < 0 then 0 else if -exponent > 100 then 100 else -exponent).toNat

def formatValue (val : JSVal) (presInfo : PresInfo) : Option JSDisplay :=
  if presInfo.format = BLE_FORMAT_BOOLEAN then some (JSDisplay.val val)
  else (jsToFixed val (numDecimals presInfo.exponent)).map JSDisplay.str

def getUnitString (presInfo : PresInfo) : String :=
  match Glove.bleUnitsGet BLE_UNITS presInfo.unit with
  | some s => s
  | none => ""

end P0

/-! ## Specification-side definitions (restated from the claims) -/

/-- The claims' required-length table: Boolean/UInt8/SInt8 need 1 byte,
UInt16/SInt16 need 2, UInt32/SInt32/Float32 need 4; anything else is an
unsupported format. -/
def requiredLength (format : ℕ) : Option ℕ :=
  if format = BLE_FORMAT_BOOLEAN ∨ format = BLE_FORMAT_UINT8 ∨ format = BLE_FORMAT_SINT8 then
    some 1
  else if format = BLE_FORMAT_UINT16 ∨ format = BLE_FORMAT_SINT16 then some 2
  else if format = BLE_FORMAT_UINT32 ∨ format = BLE_FORMAT_SINT32 ∨
      format = BLE_FORMAT_FLOAT32 then some 4
  else none

/-- `s` is a fixed-point decimal rendering with exactly `d` digits after
the decimal point: no point at all when `d = 0`, otherwise a single point
followed by exactly `d` characters. -/
def fixedPointShape (s : String) (d : ℕ) : Prop :=
  if d = 0 then '.' ∉ s.data
  else ∃ a b, s.data = a ++ '.' :: b ∧ b.length = d ∧ '.' ∉ a ∧ '.' ∉ b

/-- First-registration order of the ids a sequence of registry events adds
to a registry whose key sequence is `ks`: updates contribute nothing, and a
registration counts only the first time its id is seen. -/
def newKeys (ks : List String) : List Glove.RegEvent → List String
  | [] => []
  | Glove.RegEvent.register u _ _ :: rest =>
      if u ∈ ks then newKeys ks rest else u :: newKeys (ks ++ [u]) rest
  | Glove.RegEvent.update _ _ :: rest => newKeys ks rest

/-- Concatenation of a list of strings. -/
def strConcat : List String → String
  | [] => ""
  | x :: rest => x ++ strConcat rest

/-- Interleave a separator between the strings of a list. -/
def sepBy (sep : String) : List String → String
  | [] => ""
  | [x] => x
  | x :: y :: rest => x ++ sep ++ sepBy sep (y :: rest)

/-- A CSV row: the fields separated by commas, with the trailing comma the
source emits rendered as a trailing empty field. -/
def csvRow (fields : List String) : String := sepBy "," (fields ++ [""])

/-- Value cell of a data row: the logged string, or an empty field when
the characteristic is absent from that row's snapshot. -/
def csvValue (row : List (String × String)) (u : String) : String :=
  (mapGet row u).getD ""

/-- Unit cell of the third header row: the unit label of the cached
presentation info, or an empty field when none is cached. -/
def csvUnit (pc : List (String × PresInfo)) (u : String) : String :=
  match mapGet pc u with
  | some presInfo => Glove.getUnitString presInfo
  | none => ""

/-- The CSV text as §6 of the spec describes it: three header rows
(service names, characteristic names, unit labels, each prefixed by the
timestamp column), one data row per log entry in log order with columns in
registration order, rows separated by newlines, and a final newline. -/
def specCSV (cl : List (String × Glove.CharacteristicInfo))
    (pc : List (String × PresInfo))
    (lg : List (String × List (String × String))) : String :=
  sepBy "\n"
    (csvRow ("Timestamp" :: cl.map (fun p => p.2.serviceName)) ::
     csvRow ("" :: cl.map (fun p => p.2.name)) ::
     csvRow ("" :: cl.map (fun p => csvUnit pc p.1)) ::
     lg.map (fun entry => csvRow (entry.1 :: cl.map (fun p => csvValue entry.2 p.1)))) ++
  "\n"

/-- A concrete page state with one accumulated log row, used to examine
`logStop`. -/
def c9State : Glove.AppState :=
  { characteristicList := []
    presInfoCache := []
    log := [("2025/01/01 00:00:00", [])]
    timerActive := true }

/-! ## Association-list map lemmas -/

theorem mapGet_mapSet_self {β : Type} (m : List (String × β)) (k : String) (v : β) :
    mapGet (mapSet m k v) k = some v := by
  induction m with
  | nil => simp [mapSet, mapGet]
  | cons p rest ih =>
      by_cases h : k = p.1
      · simp [mapSet, mapGet, h]
      · simp [mapSet, mapGet, h, ih]

theorem mapKeys_mapSet {β : Type} (m : List (String × β)) (k : String) (v : β) :
    mapKeys (mapSet m k v) =
      if k ∈ mapKeys m then mapKeys m else mapKeys m ++ [k] := by
  induction m with
  | nil => simp [mapSet, mapKeys]
  | cons p rest ih =>
      obtain ⟨a, b⟩ := p
      by_cases h : k = a
      · simp [mapSet, mapKeys, h]
      · have hstep : mapSet ((a, b) :: rest) k v = (a, b) :: mapSet rest k v := by
          simp [mapSet, h]
        rw [hstep]
        have hk1 : mapKeys ((a, b) :: mapSet rest k v) = a :: mapKeys (mapSet rest k v) := rfl
        have hk2 : mapKeys ((a, b) :: rest) = a :: mapKeys rest := rfl
        rw [hk1, hk2, ih]
        by_cases hm : k ∈ mapKeys rest
        · rw [if_pos hm, if_pos (by simp [hm])]
        · rw [if_neg hm, if_neg (by simp [h, hm])]
          simp

theorem mem_mapKeys_of_mapGet {β : Type} (m : List (String × β)) (k : String) (v : β)
    (h : mapGet m k = some v) : k ∈ mapKeys m := by
  induction m with
  | nil => simp [mapGet] at h
  | cons p rest ih =>
      obtain ⟨a, b⟩ := p
      by_cases hk : k = a
      · exact hk ▸ List.mem_cons_self a (mapKeys rest)
      · simp only [mapGet, if_neg hk] at h
        exact List.mem_cons_of_mem a (ih h)

theorem mapKeys_mapSet_of_mem {β : Type} (m : List (String × β)) (k : String) (v : β)
    (h : k ∈ mapKeys m) : mapKeys (mapSet m k v) = mapKeys m := by
  rw [mapKeys_mapSet, if_pos h]

theorem mem_mapKeys_mapSet_self {β : Type} (m : List (String × β)) (k : String) (v : β) :
    k ∈ mapKeys (mapSet m k v) := by
  rw [mapKeys_mapSet]
  by_cases h : k ∈ mapKeys m <;> simp [h]

/-! ## Claim theorems -/

/-- C2: descriptor decoding fails (yields nothing, so the characteristic is
not registered) on every buffer shorter than 7 bytes; on a buffer of at
least 7 bytes it yields the record with `format` the unsigned byte 0,
`exponent` the two's-complement signed byte 1, `unit` the little-endian
unsigned 16-bit of bytes 2–3, bytes 4–6 ignored, with no side effects. -/
theorem c2_readPresInfo_contract (buf : List ℕ) :
    Glove.readPresInfo buf =
      if buf.length < 7 then none
      else
        some { format := buf.getD 0 0 % 256
               exponent :=
                 if buf.getD 1 0 % 256 < 128 then ((buf.getD 1 0 % 256 : ℕ) : ℤ)
                 else ((buf.getD 1 0 % 256 : ℕ) : ℤ) - 256
               unit := buf.getD 2 0 % 256 + 256 * (buf.getD 3 0 % 256) } := rfl

/-- C4: for every supported format, a value buffer shorter than the
format's required length decodes to 0 (the logged length-mismatch path);
an unsupported format code decodes to 0 for a buffer of any length. -/
theorem c4_readValue_short_or_unknown (buf : List ℕ) (presInfo : PresInfo) :
    (∀ L, requiredLength presInfo.format = some L → buf.length < L →
      Glove.readValue buf presInfo = JSVal.num 0) ∧
    (requiredLength presInfo.format = none →
      Glove.readValue buf presInfo = JSVal.num 0) := by
  constructor
  · intro L hL hlen
    unfold requiredLength at hL
    split_ifs at hL with h1 h2 h3
    · rcases h1 with h | h | h <;>
        · cases hL
          simp [Glove.readValue, Glove.formatSpec, h, hlen,
            BLE_FORMAT_BOOLEAN, BLE_FORMAT_UINT8, BLE_FORMAT_UINT16, BLE_FORMAT_UINT32,
            BLE_FORMAT_SINT8, BLE_FORMAT_SINT16, BLE_FORMAT_SINT32, BLE_FORMAT_FLOAT32]
    · rcases h2 with h | h <;>
        · cases hL
          simp [Glove.readValue, Glove.formatSpec, h, hlen,
            BLE_FORMAT_BOOLEAN, BLE_FORMAT_UINT8, BLE_FORMAT_UINT16, BLE_FORMAT_UINT32,
            BLE_FORMAT_SINT8, BLE_FORMAT_SINT16, BLE_FORMAT_SINT32, BLE_FORMAT_FLOAT32]
    · rcases h3 with h | h | h <;>
        · cases hL
          simp [Glove.readValue, Glove.formatSpec, h, hlen,
            BLE_FORMAT_BOOLEAN, BLE_FORMAT_UINT8, BLE_FORMAT_UINT16, BLE_FORMAT_UINT32,
            BLE_FORMAT_SINT8, BLE_FORMAT_SINT16, BLE_FORMAT_SINT32, BLE_FORMAT_FLOAT32]
  · intro hN
    unfold requiredLength at hN
    split_ifs at hN with h1 h2 h3
    push_neg at h1 h2 h3
    simp [Glove.readValue, Glove.formatSpec, h1.1, h1.2.1, h1.2.2, h2.1, h2.2,
      h3.1, h3.2.1, h3.2.2]

/-- C4 witness: a 1-byte buffer is too short for UInt16 and decodes to 0;
format code 2 is unsupported and decodes to 0 even with 4 bytes present. -/
theorem c4_witness :
    Glove.readValue [1] ⟨BLE_FORMAT_UINT16, 0, 0⟩ = JSVal.num 0 ∧
    Glove.readValue [1, 2, 3, 4] ⟨2, 0, 0⟩ = JSVal.num 0 :=
  ⟨(c4_readValue_short_or_unknown [1] ⟨BLE_FORMAT_UINT16, 0, 0⟩).1 2 (by decide) (by decide),
   (c4_readValue_short_or_unknown [1, 2, 3, 4] ⟨2, 0, 0⟩).2 (by decide)⟩

/-- C5 counterexample: the source's unit table maps `0x272F` to the literal
mojibake string `"Â°C"`, not to `"°C"` as the claim states. -/
theorem c5_counterexample : Glove.getUnitString ⟨4, 0, 0x272F⟩ ≠ "°C" := by decide

/-- C5 (amended): unit lookup is total: `0x2700 ↦ ""`, `0x272D ↦ "uT"`,
`0x272F ↦ "Â°C"` (the file's literal text), `0x27AD ↦ "%"`, and every code
outside the table — the logged-warning path — yields the empty string. -/
theorem c5_unit_lookup_amended (f : ℕ) (e : ℤ) :
    Glove.getUnitString ⟨f, e, 0x2700⟩ = "" ∧
    Glove.getUnitString ⟨f, e, 0x272D⟩ = "uT" ∧
    Glove.getUnitString ⟨f, e, 0x272F⟩ = "Â°C" ∧
    Glove.getUnitString ⟨f, e, 0x27AD⟩ = "%" ∧
    ∀ u : ℕ, u ∉ Glove.BLE_UNITS.map Prod.fst → Glove.getUnitString ⟨f, e, u⟩ = "" := by
  refine ⟨rfl, rfl, rfl, rfl, ?_⟩
  intro u hu
  simp [Glove.BLE_UNITS] at hu
  obtain ⟨k1, k2, k3, k4, k5, k6, k7, k8, k9, k10, k11⟩ := hu
  simp [Glove.getUnitString, Glove.bleUnitsGet, Glove.BLE_UNITS,
    k1, k2, k3, k4, k5, k6, k7, k8, k9, k10, k11]

/-- C5 witness: the unlisted code `0xFFFF` yields the empty string. -/
theorem c5_witness : Glove.getUnitString ⟨4, 0, 0xFFFF⟩ = "" :=
  (c5_unit_lookup_amended 4 0).2.2.2.2 0xFFFF (by decide)

/-- C1: for every supported non-Boolean format and buffer at least as long
as the format requires, `readValue` is the little-endian raw decode of the
required-length prefix times `10 ^ exponent`, for every exponent in
`[-128, 127]`, with no overflow failure (the function is total); for the
Boolean format and at least one byte, the result is the truth value of
byte 0 being nonzero, unscaled. -/
theorem c1_readValue_decode_and_scale (buf : List ℕ) (e : ℤ) (u : ℕ)
    (he1 : -128 ≤ e) (he2 : e ≤ 127) :
    (1 ≤ buf.length →
      Glove.readValue buf ⟨BLE_FORMAT_UINT8, e, u⟩ =
        JSVal.num ((byteAt buf 0 : ℚ) * 10 ^ e)) ∧
    (2 ≤ buf.length →
      Glove.readValue buf ⟨BLE_FORMAT_UINT16, e, u⟩ =
        JSVal.num (((byteAt buf 0 + 256 * byteAt buf 1 : ℕ) : ℚ) * 10 ^ e)) ∧
    (4 ≤ buf.length →
      Glove.readValue buf ⟨BLE_FORMAT_UINT32, e, u⟩ =
        JSVal.num (((byteAt buf 0 + 256 * byteAt buf 1 + 65536 * byteAt buf 2 +
            16777216 * byteAt buf 3 : ℕ) : ℚ) * 10 ^ e)) ∧
    (1 ≤ buf.length →
      Glove.readValue buf ⟨BLE_FORMAT_SINT8, e, u⟩ =
        JSVal.num (((if byteAt buf 0 < 128 then (byteAt buf 0 : ℤ)
            else (byteAt buf 0 : ℤ) - 256) : ℚ) * 10 ^ e)) ∧
    (2 ≤ buf.length →
      Glove.readValue buf ⟨BLE_FORMAT_SINT16, e, u⟩ =
        JSVal.num (((if byteAt buf 0 + 256 * byteAt buf 1 < 2 ^ 15 then
              ((byteAt buf 0 + 256 * byteAt buf 1 : ℕ) : ℤ)
            else ((byteAt buf 0 + 256 * byteAt buf 1 : ℕ) : ℤ) - 2 ^ 16) : ℚ) * 10 ^ e)) ∧
    (4 ≤ buf.length →
      Glove.readValue buf ⟨BLE_FORMAT_SINT32, e, u⟩ =
        JSVal.num (((if byteAt buf 0 + 256 * byteAt buf 1 + 65536 * byteAt buf 2 +
              16777216 * byteAt buf 3 < 2 ^ 31 then
              ((byteAt buf 0 + 256 * byteAt buf 1 + 65536 * byteAt buf 2 +
                16777216 * byteAt buf 3 : ℕ) : ℤ)
            else ((byteAt buf 0 + 256 * byteAt buf 1 + 65536 * byteAt buf 2 +
                16777216 * byteAt buf 3 : ℕ) : ℤ) - 2 ^ 32) : ℚ) * 10 ^ e)) ∧
    (4 ≤ buf.length → ∀ q : ℚ,
      float32FromBits (byteAt buf 0 + 256 * byteAt buf 1 + 65536 * byteAt buf 2 +
          16777216 * byteAt buf 3) = JSVal.num q →
      Glove.readValue buf ⟨BLE_FORMAT_FLOAT32, e, u⟩ = JSVal.num (q * 10 ^ e)) ∧
    (1 ≤ buf.length →
      Glove.readValue buf ⟨BLE_FORMAT_BOOLEAN, e, u⟩ =
        JSVal.bool (decide (byteAt buf 0 ≠ 0))) := by
  refine ⟨?_, ?_, ?_, ?_, ?_, ?_, ?_, ?_⟩
  · intro h
    have hlt : ¬ buf.length < 1 := by omega
    simp [Glove.readValue, Glove.formatSpec, hlt, jsMulPos, getUint8,
      BLE_FORMAT_BOOLEAN, BLE_FORMAT_UINT8, BLE_FORMAT_UINT16, BLE_FORMAT_UINT32,
      BLE_FORMAT_SINT8, BLE_FORMAT_SINT16, BLE_FORMAT_SINT32, BLE_FORMAT_FLOAT32]
  · intro h
    have hlt : ¬ buf.length < 2 := by omega
    simp [Glove.readValue, Glove.formatSpec, hlt, jsMulPos, getUint16, IS_LITTLE_ENDIAN,
      BLE_FORMAT_BOOLEAN, BLE_FORMAT_UINT8, BLE_FORMAT_UINT16, BLE_FORMAT_UINT32,
      BLE_FORMAT_SINT8, BLE_FORMAT_SINT16, BLE_FORMAT_SINT32, BLE_FORMAT_FLOAT32]
  · intro h
    have hlt : ¬ buf.length < 4 := by omega
    simp [Glove.readValue, Glove.formatSpec, hlt, jsMulPos, getUint32, IS_LITTLE_ENDIAN,
      BLE_FORMAT_BOOLEAN, BLE_FORMAT_UINT8, BLE_FORMAT_UINT16, BLE_FORMAT_UINT32,
      BLE_FORMAT_SINT8, BLE_FORMAT_SINT16, BLE_FORMAT_SINT32, BLE_FORMAT_FLOAT32]
  · intro h
    have hlt : ¬ buf.length < 1 := by omega
    simp [Glove.readValue, Glove.formatSpec, hlt, jsMulPos, getInt8,
      BLE_FORMAT_BOOLEAN, BLE_FORMAT_UINT8, BLE_FORMAT_UINT16, BLE_FORMAT_UINT32,
      BLE_FORMAT_SINT8, BLE_FORMAT_SINT16, BLE_FORMAT_SINT32, BLE_FORMAT_FLOAT32]
  · intro h
    have hlt : ¬ buf.length < 2 := by omega
    simp [Glove.readValue, Glove.formatSpec, hlt, jsMulPos, getInt16, getUint16,
      IS_LITTLE_ENDIAN,
      BLE_FORMAT_BOOLEAN, BLE_FORMAT_UINT8, BLE_FORMAT_UINT16, BLE_FORMAT_UINT32,
      BLE_FORMAT_SINT8, BLE_FORMAT_SINT16, BLE_FORMAT_SINT32, BLE_FORMAT_FLOAT32]
    norm_num
  · intro h
    have hlt : ¬ buf.length < 4 := by omega
    simp [Glove.readValue, Glove.formatSpec, hlt, jsMulPos, getInt32, getUint32,
      IS_LITTLE_ENDIAN,
      BLE_FORMAT_BOOLEAN, BLE_FORMAT_UINT8, BLE_FORMAT_UINT16, BLE_FORMAT_UINT32,
      BLE_FORMAT_SINT8, BLE_FORMAT_SINT16, BLE_FORMAT_SINT32, BLE_FORMAT_FLOAT32]
    norm_num
  · intro h q hq
    have hlt : ¬ buf.length < 4 := by omega
    simp only [Glove.readValue, Glove.formatSpec, getFloat32, getUint32, IS_LITTLE_ENDIAN,
      BLE_FORMAT_BOOLEAN, BLE_FORMAT_UINT8, BLE_FORMAT_UINT16, BLE_FORMAT_UINT32,
      BLE_FORMAT_SINT8, BLE_FORMAT_SINT16, BLE_FORMAT_SINT32, BLE_FORMAT_FLOAT32]
    norm_num [hlt, hq, jsMulPos]
  · intro h
    have hlt : ¬ buf.length < 1 := by omega
    simp [Glove.readValue, Glove.formatSpec, hlt, getUint8,
      BLE_FORMAT_BOOLEAN, BLE_FORMAT_UINT8, BLE_FORMAT_UINT16, BLE_FORMAT_UINT32,
      BLE_FORMAT_SINT8, BLE_FORMAT_SINT16, BLE_FORMAT_SINT32, BLE_FORMAT_FLOAT32]

/-- C1 witness: the buffer `[2, 1, 0, 0]` with exponent `-2` decodes as
UInt16 to `258 × 10⁻² = 129/50`, and `[5]` with Boolean format (nonzero
exponent `3` ignored) decodes to `true`. -/
theorem c1_witness :
    Glove.readValue [2, 1, 0, 0] ⟨BLE_FORMAT_UINT16, -2, 0⟩ = JSVal.num (129 / 50) ∧
    Glove.readValue [5] ⟨BLE_FORMAT_BOOLEAN, 3, 0⟩ = JSVal.bool true := by
  constructor
  · have h := (c1_readValue_decode_and_scale [2, 1, 0, 0] (-2) 0 (by norm_num)
      (by norm_num)).2.1 (by norm_num)
    refine h.trans (congrArg JSVal.num ?_)
    norm_num [byteAt]
  · have h := (c1_readValue_decode_and_scale [5] 3 0 (by norm_num)
      (by norm_num)).2.2.2.2.2.2.2 (by norm_num)
    refine h.trans (congrArg JSVal.bool ?_)
    decide

/-! ## Fixed-point rendering lemmas (for C3) -/

theorem digitChar_ne_dot (d : ℕ) (hd : d < 10) : digitChar d ≠ '.' := by
  interval_cases d <;> decide

theorem toCharsCore_mem (fuel n : ℕ) (acc : List Char) (c : Char)
    (hc : c ∈ toCharsCore fuel n acc) : c ∈ acc ∨ ∃ d, d < 10 ∧ c = digitChar d := by
  induction fuel generalizing n acc with
  | zero =>
      simp only [toCharsCore] at hc
      exact Or.inl hc
  | succ fuel ih =>
      simp only [toCharsCore] at hc
      by_cases h : n < 10
      · rw [if_pos h] at hc
        rcases List.mem_cons.mp hc with h1 | h1
        · exact Or.inr ⟨n % 10, Nat.mod_lt _ (by norm_num), h1⟩
        · exact Or.inl h1
      · rw [if_neg h] at hc
        rcases ih _ _ hc with h1 | h1
        · rcases List.mem_cons.mp h1 with h2 | h2
          · exact Or.inr ⟨n % 10, Nat.mod_lt _ (by norm_num), h2⟩
          · exact Or.inl h2
        · exact Or.inr h1

theorem dot_notin_natToChars (n : ℕ) : '.' ∉ natToChars n := by
  intro h
  rcases toCharsCore_mem _ _ _ _ h with h1 | ⟨d, hd, hc⟩
  · simp at h1
  · exact digitChar_ne_dot d hd hc.symm

theorem renderFixed_shape (n f : ℕ) : fixedPointShape (renderFixed n f) f := by
  unfold fixedPointShape renderFixed
  by_cases hf : f = 0
  · rw [if_pos hf, if_pos hf]
    exact dot_notin_natToChars n
  · rw [if_neg hf, if_neg hf]
    have hpd : '.' ∉ List.replicate (f + 1 - (natToChars n).length) '0' ++ natToChars n := by
      intro hmem
      rcases List.mem_append.mp hmem with hm | hm
      · have := List.eq_of_mem_replicate hm
        exact absurd this (by decide)
      · exact dot_notin_natToChars n hm
    have hlen : f ≤ (List.replicate (f + 1 - (natToChars n).length) '0' ++ natToChars n).length := by
      rw [List.length_append, List.length_replicate]
      omega
    refine ⟨_, _, rfl, ?_, ?_, ?_⟩
    · rw [List.length_drop]
      omega
    · intro hc
      exact hpd (List.take_subset _ _ hc)
    · intro hc
      exact hpd (List.drop_subset _ _ hc)

theorem toFixedQ_shape (x : ℚ) (f : ℕ) (hx : |x| < 10 ^ 21) :
    fixedPointShape (toFixedQ x f) f := by
  unfold toFixedQ
  by_cases hneg : x < 0
  · rw [if_pos hneg]
    have hbig : ¬ ((10 : ℚ) ^ (21 : ℕ) ≤ -x) := by
      rw [abs_of_neg hneg] at hx
      exact not_le.mpr hx
    unfold toFixedPos
    rw [if_neg hbig]
    have h := renderFixed_shape (⌊-x * 10 ^ f + 1 / 2⌋).toNat f
    unfold fixedPointShape at h ⊢
    by_cases hf : f = 0
    · rw [if_pos hf] at h ⊢
      rw [String.data_append]
      intro hm
      rcases List.mem_append.mp hm with hm | hm
      · simp at hm
      · exact h hm
    · rw [if_neg hf] at h ⊢
      obtain ⟨a, b, hab, hb, ha, hbn⟩ := h
      refine ⟨'-' :: a, b, ?_, hb, ?_, hbn⟩
      · rw [String.data_append, hab]
        rfl
      · intro hm
        rcases List.mem_cons.mp hm with hm | hm
        · exact absurd hm (by decide)
        · exact ha hm
  · rw [if_neg hneg]
    have hbig : ¬ ((10 : ℚ) ^ (21 : ℕ) ≤ x) := by
      rw [abs_of_nonneg (not_lt.mp hneg)] at hx
      exact not_le.mpr hx
    unfold toFixedPos
    rw [if_neg hbig]
    exact renderFixed_shape _ f

theorem numDecimals_eq_clamp (e : ℤ) :
    Glove.numDecimals e = (max 0 (min 100 (-e))).toNat := by
  unfold Glove.numDecimals
  split_ifs <;> omega

/-- Concrete rendering: `12.34` with two decimals. -/
theorem toFixedQ_example1 : toFixedQ (1234 / 100 : ℚ) 2 = "12.34" := by
  have hx : ¬ ((1234 / 100 : ℚ) < 0) := by norm_num
  have hbig : ¬ ((10 : ℚ) ^ (21 : ℕ) ≤ 1234 / 100) := by norm_num
  have h3 : (⌊(1234 : ℚ) / 100 * 10 ^ (2 : ℕ) + 1 / 2⌋) = 1234 := by
    norm_num [Int.floor_eq_iff]
  simp only [toFixedQ, toFixedPos, if_neg hx, if_neg hbig, h3]
  decide

/-- Concrete rendering: `5` with zero decimals. -/
theorem toFixedQ_example2 : toFixedQ (5 : ℚ) 0 = "5" := by
  have hx : ¬ ((5 : ℚ) < 0) := by norm_num
  have hbig : ¬ ((10 : ℚ) ^ (21 : ℕ) ≤ 5) := by norm_num
  have h3 : (⌊(5 : ℚ) * 10 ^ (0 : ℕ) + 1 / 2⌋) = 5 := by
    norm_num [Int.floor_eq_iff]
  simp only [toFixedQ, toFixedPos, if_neg hx, if_neg hbig, h3]
  decide

/-- C3 counterexample: at the numeric value `10^36` (reachable as a large
Float32 reading scaled by exponent `-2`, so two decimal places are
requested) `formatValue` yields the exponential-notation string `"1e+36"`
— `toFixed`'s `ToString` fallback at and above `10^21` — which is not a
fixed-point decimal string with two digits after the decimal point, so the
claim's universal fixed-point shape fails. -/
theorem c3_counterexample :
    Glove.formatValue (JSVal.num ((10 : ℚ) ^ (36 : ℕ))) ⟨BLE_FORMAT_FLOAT32, -2, 0⟩ =
      some (JSDisplay.str "1e+36") ∧
    ¬ fixedPointShape "1e+36" 2 := by
  constructor
  · have hfmt : ¬ (BLE_FORMAT_FLOAT32 = BLE_FORMAT_BOOLEAN) := by decide
    have hneg : ¬ (((10 : ℚ) ^ (36 : ℕ)) < 0) := by norm_num
    have hbig : (10 : ℚ) ^ (21 : ℕ) ≤ (10 : ℚ) ^ (36 : ℕ) := by norm_num
    have hd : Glove.numDecimals (-2) = 2 := by decide
    have hfl : (⌊(10 : ℚ) ^ (36 : ℕ)⌋) = 10 ^ 36 := by
      norm_num [Int.floor_eq_iff]
    simp only [Glove.formatValue, hfmt, if_neg hfmt, jsToFixed, hd, toFixedQ,
      if_neg hneg, toFixedPos, if_pos hbig, jsToStringLarge, hfl, Option.map_some]
    decide
  · intro h
    have h2 : (2 : ℕ) ≠ 0 := by decide
    unfold fixedPointShape at h
    rw [if_neg h2] at h
    obtain ⟨a, b, hab, hb, ha, hbn⟩ := h
    have hmem : '.' ∈ ("1e+36" : String).data := by
      rw [hab]
      exact List.mem_append_right a (List.mem_cons_self '.' b)
    exact absurd hmem (by decide)

/-- C3 (amended): Boolean format passes the value through unchanged with
the exponent ignored; every other format renders a finite numeric value of
magnitude below `10^21` — the threshold at which JavaScript's `toFixed`
falls back to exponential `ToString` — as a fixed-point decimal string
with exactly `max 0 (min 100 (-exponent))` digits after the decimal
point. -/
theorem c3_formatValue_fixed_point_amended (v : JSVal) (presInfo : PresInfo) :
    (presInfo.format = BLE_FORMAT_BOOLEAN →
      Glove.formatValue v presInfo = some (JSDisplay.val v)) ∧
    (presInfo.format ≠ BLE_FORMAT_BOOLEAN → ∀ q : ℚ, v = JSVal.num q →
      |q| < 10 ^ 21 →
      Glove.formatValue v presInfo =
        some (JSDisplay.str (toFixedQ q (max 0 (min 100 (-presInfo.exponent))).toNat)) ∧
      fixedPointShape (toFixedQ q (max 0 (min 100 (-presInfo.exponent))).toNat)
        (max 0 (min 100 (-presInfo.exponent))).toNat) := by
  constructor
  · intro h
    simp [Glove.formatValue, h]
  · intro h q hq hsmall
    subst hq
    constructor
    · simp [Glove.formatValue, h, jsToFixed, numDecimals_eq_clamp]
    · exact toFixedQ_shape q _ hsmall

/-- C3 witness: a raw SInt16 reading `1234` scaled by exponent `-2`
formats as `"12.34"`, and a reading `5` with exponent `0` as `"5"`. -/
theorem c3_witness :
    Glove.formatValue (JSVal.num (1234 / 100)) ⟨BLE_FORMAT_SINT16, -2, 0x272F⟩ =
      some (JSDisplay.str "12.34") ∧
    Glove.formatValue (JSVal.num 5) ⟨BLE_FORMAT_UINT8, 0, 0x27AD⟩ =
      some (JSDisplay.str "5") := by
  constructor
  · have h := ((c3_formatValue_fixed_point_amended (JSVal.num (1234 / 100))
        ⟨BLE_FORMAT_SINT16, -2, 0x272F⟩).2 (by decide) (1234 / 100) rfl
        (by rw [abs_of_nonneg (by norm_num : (0 : ℚ) ≤ 1234 / 100)]; norm_num)).1
    refine h.trans ?_
    have hd : ((max 0 (min 100 (-(-2 : ℤ)))).toNat) = 2 := by decide
    rw [hd, toFixedQ_example1]
  · have h := ((c3_formatValue_fixed_point_amended (JSVal.num 5)
        ⟨BLE_FORMAT_UINT8, 0, 0x27AD⟩).2 (by decide) 5 rfl
        (by rw [abs_of_nonneg (by norm_num : (0 : ℚ) ≤ 5)]; norm_num)).1
    refine h.trans ?_
    have hd : ((max 0 (min 100 (-(0 : ℤ)))).toNat) = 0 := by decide
    rw [hd, toFixedQ_example2]

/-- C10: the codec cores of the two source files are extensionally equal:
`readPresInfo`, `readValue`, `formatValue` and `getUnitString` agree on
every input (the extra endianness arguments the first file passes to the
single-byte accessors are ignored). -/
theorem c10_versions_extensionally_equal :
    (∀ buf, Glove.readPresInfo buf = P0.readPresInfo buf) ∧
    (∀ buf presInfo, Glove.readValue buf presInfo = P0.readValue buf presInfo) ∧
    (∀ v presInfo, Glove.formatValue v presInfo = P0.formatValue v presInfo) ∧
    (∀ presInfo, Glove.getUnitString presInfo = P0.getUnitString presInfo) :=
  ⟨fun _ => rfl, fun _ _ => rfl, fun _ _ => rfl, fun _ => rfl⟩

/-! ## Registry and log lemmas (C6, C8, C9) -/

theorem mapKeys_cacheValue (cl : List (String × Glove.CharacteristicInfo))
    (u s : String) : mapKeys (Glove.cacheValue cl u s) = mapKeys cl := by
  unfold Glove.cacheValue
  cases h : mapGet cl u with
  | none => rfl
  | some info => exact mapKeys_mapSet_of_mem _ _ _ (mem_mapKeys_of_mapGet _ _ _ h)

theorem applyEvents_keys (evs : List Glove.RegEvent) :
    ∀ cl, mapKeys (Glove.applyEvents cl evs) = mapKeys cl ++ newKeys (mapKeys cl) evs := by
  induction evs with
  | nil =>
      intro cl
      simp [Glove.applyEvents, newKeys]
  | cons ev rest ih =>
      intro cl
      cases ev with
      | register u n sn =>
          have hstep : Glove.applyEvents cl (Glove.RegEvent.register u n sn :: rest) =
              Glove.applyEvents (Glove.registerCharacteristic cl u n sn) rest := rfl
          rw [hstep, ih]
          by_cases hm : u ∈ mapKeys cl
          · rw [show mapKeys (Glove.registerCharacteristic cl u n sn) = mapKeys cl from
              mapKeys_mapSet_of_mem _ _ _ hm]
            simp [newKeys, hm]
          · have hkeys : mapKeys (Glove.registerCharacteristic cl u n sn) = mapKeys cl ++ [u] := by
              unfold Glove.registerCharacteristic
              rw [mapKeys_mapSet, if_neg hm]
            rw [hkeys]
            simp [newKeys, hm]
      | update u s =>
          have hstep : Glove.applyEvents cl (Glove.RegEvent.update u s :: rest) =
              Glove.applyEvents (Glove.cacheValue cl u s) rest := rfl
          rw [hstep, ih, mapKeys_cacheValue]
          simp [newKeys]

/-- C6: after any interleaving of registrations and value updates, the
registry's key order — the snapshot and CSV column order — is the original
keys followed by the new ids in first-registration order: updates never
move a column, and re-registering an existing id overwrites the record
(fresh name/service, empty last value) without changing its position. -/
theorem c6_registration_order (cl : List (String × Glove.CharacteristicInfo))
    (evs : List Glove.RegEvent) :
    mapKeys (Glove.applyEvents cl evs) = mapKeys cl ++ newKeys (mapKeys cl) evs ∧
    ∀ uuid name serviceName,
      mapGet (Glove.registerCharacteristic cl uuid name serviceName) uuid =
        some ⟨name, serviceName, ""⟩ :=
  ⟨applyEvents_keys evs cl, fun uuid name serviceName => mapGet_mapSet_self cl uuid _⟩

/-- C8: two ticks whose timestamps render identically leave a single log
row for that timestamp, equal to the later tick's registry snapshot, in the
earlier tick's position; a tick with a fresh timestamp appends its row at
the end, preserving chronological insertion order. -/
theorem c8_same_second_rows_merge (cl cl' : List (String × Glove.CharacteristicInfo))
    (lg : List (String × List (String × String))) (ts ts' : String)
    (hts : ts' ∉ mapKeys lg) :
    mapGet (Glove.updateLog cl' (Glove.updateLog cl lg ts) ts) ts =
      some (Glove.logSnapshot cl') ∧
    mapKeys (Glove.updateLog cl' (Glove.updateLog cl lg ts) ts) =
      mapKeys (Glove.updateLog cl lg ts) ∧
    mapKeys (Glove.updateLog cl lg ts') = mapKeys lg ++ [ts'] := by
  refine ⟨mapGet_mapSet_self _ _ _, ?_, ?_⟩
  · exact mapKeys_mapSet_of_mem _ _ _ (mem_mapKeys_mapSet_self lg ts _)
  · unfold Glove.updateLog
    rw [mapKeys_mapSet, if_neg hts]

/-- C8 witness: on an empty log, two ticks at timestamp `"t"` merge into
one row holding the later snapshot, and a later tick at `"t2"` appends. -/
theorem c8_witness :
    mapGet (Glove.updateLog [("a", ⟨"n", "s", "w"⟩)]
        (Glove.updateLog [("a", ⟨"n", "s", "v"⟩)] [] "t") "t") "t" =
      some (Glove.logSnapshot [("a", ⟨"n", "s", "w"⟩)]) ∧
    mapKeys (Glove.updateLog [("a", ⟨"n", "s", "w"⟩)]
        (Glove.updateLog [("a", ⟨"n", "s", "v"⟩)] [] "t") "t") =
      mapKeys (Glove.updateLog [("a", ⟨"n", "s", "v"⟩)] [] "t") ∧
    mapKeys (Glove.updateLog [("a", ⟨"n", "s", "v"⟩)] [] "t2") =
      mapKeys ([] : List (String × List (String × String))) ++ ["t2"] :=
  c8_same_second_rows_merge [("a", ⟨"n", "s", "v"⟩)] [("a", ⟨"n", "s", "w"⟩)] [] "t" "t2"
    (by decide)

/-- C9 counterexample: `logStop` does not clear the log — on a state with
one accumulated row, the log after stop is still non-empty, so the claim
that the Log is "fully consumed and cleared at log-stop" is false. -/
theorem c9_counterexample : (Glove.logStop c9State).1.log ≠ [] := by decide

/-- C9 (amended): on stop the timer is cancelled and, exactly when the log
is non-empty, the rendered CSV is handed to the export collaborator; the
log itself is left populated at stop and is only created fresh (cleared)
by the next `logStart`, which also starts the timer. -/
theorem c9_logStop_amended (s : Glove.AppState) :
    (Glove.logStop s).1.timerActive = false ∧
    (Glove.logStop s).1.log = s.log ∧
    (Glove.logStop s).2 =
      (if s.log.length > 0 then
        some (Glove.printLog s.characteristicList s.presInfoCache s.log)
      else none) ∧
    (Glove.logStart s).log = [] ∧
    (Glove.logStart s).timerActive = true :=
  ⟨rfl, rfl, rfl, rfl, rfl⟩

/-! ## CSV rendering lemmas (C7) -/

theorem foldl_str {α : Type} (g : String → α → String) (f : α → String)
    (hg : ∀ acc x, g acc x = acc ++ f x) (l : List α) :
    ∀ init : String, List.foldl g init l = init ++ strConcat (l.map f) := by
  induction l with
  | nil =>
      intro init
      simp [strConcat]
  | cons x xs ih =>
      intro init
      rw [List.foldl_cons, hg, ih]
      simp only [List.map_cons, strConcat]
      rw [String.append_assoc]

theorem sepBy_comma_blank (l : List String) :
    sepBy "," (l ++ [""]) = strConcat (l.map (fun y => y ++ ",")) := by
  induction l with
  | nil => rfl
  | cons x xs ih =>
      cases xs with
      | nil => rfl
      | cons y ys =>
          calc sepBy "," ((x :: y :: ys) ++ [""])
              = x ++ "," ++ sepBy "," ((y :: ys) ++ [""]) := rfl
            _ = x ++ "," ++ strConcat ((y :: ys).map (fun z => z ++ ",")) := by rw [ih]
            _ = strConcat ((x :: y :: ys).map (fun z => z ++ ",")) := by
                simp [strConcat, String.append_assoc]

theorem sepBy_newline_rows (rows : List String) :
    ∀ r : String, sepBy "\n" (r :: rows) = r ++ strConcat (rows.map (fun x => "\n" ++ x)) := by
  induction rows with
  | nil =>
      intro r
      simp [sepBy, strConcat]
  | cons d ds ih =>
      intro r
      calc sepBy "\n" (r :: d :: ds) = r ++ "\n" ++ sepBy "\n" (d :: ds) := rfl
        _ = r ++ "\n" ++ (d ++ strConcat (ds.map (fun x => "\n" ++ x))) := by rw [ih]
        _ = r ++ strConcat ((d :: ds).map (fun x => "\n" ++ x)) := by
            simp [strConcat, String.append_assoc]

theorem csvRow_cons (x : String) (l : List String) :
    csvRow (x :: l) = x ++ "," ++ strConcat (l.map (fun y => y ++ ",")) := by
  cases l with
  | nil => rfl
  | cons y ys =>
      calc csvRow (x :: y :: ys)
          = x ++ "," ++ sepBy "," ((y :: ys) ++ [""]) := rfl
        _ = x ++ "," ++ strConcat ((y :: ys).map (fun z => z ++ ",")) := by
            rw [sepBy_comma_blank]

theorem unitCell_eq (pc : List (String × PresInfo)) (acc uuid : String) :
    Glove.unitCell pc acc uuid = acc ++ csvUnit pc uuid := by
  unfold Glove.unitCell csvUnit
  cases h : mapGet pc uuid with
  | none => simp
  | some presInfo => simp

theorem valueCell_eq (row : List (String × String)) (acc uuid : String) :
    Glove.valueCell row acc uuid = acc ++ csvValue row uuid := by
  unfold Glove.valueCell csvValue
  cases h : mapGet row uuid with
  | none => simp
  | some v => simp

/-- C7: for every registry, presentation cache and non-empty log, the
exported CSV text is exactly the three header rows (service names, then
characteristic names, then unit labels, each with a leading timestamp
column), followed by one data row per log entry in log insertion order
with value columns in registration order, absent characteristics rendering
as empty fields, the whole text ending in a newline. -/
theorem c7_printLog_is_specCSV (cl : List (String × Glove.CharacteristicInfo))
    (pc : List (String × PresInfo))
    (lg : List (String × List (String × String))) (hlg : lg ≠ []) :
    Glove.printLog cl pc lg = specCSV cl pc lg := by
  have hsvc := foldl_str
    (fun acc (p : String × Glove.CharacteristicInfo) => acc ++ p.2.serviceName ++ ",")
    (fun p => p.2.serviceName ++ ",")
    (fun acc x => String.append_assoc _ _ _) cl
  have hname := foldl_str
    (fun acc (p : String × Glove.CharacteristicInfo) => acc ++ p.2.name ++ ",")
    (fun p => p.2.name ++ ",")
    (fun acc x => String.append_assoc _ _ _) cl
  have hunit := foldl_str
    (fun acc (p : String × Glove.CharacteristicInfo) => Glove.unitCell pc acc p.1 ++ ",")
    (fun p => csvUnit pc p.1 ++ ",")
    (fun acc x => by
      dsimp only
      rw [unitCell_eq, String.append_assoc]) cl
  have hval : ∀ (row : List (String × String)) (init : String),
      List.foldl (fun a (p : String × Glove.CharacteristicInfo) =>
        Glove.valueCell row a p.1 ++ ",") init cl =
      init ++ strConcat (cl.map (fun p => csvValue row p.1 ++ ",")) :=
    fun row => foldl_str _ _ (fun a x => by
      rw [valueCell_eq, String.append_assoc]) cl
  have hrows := foldl_str
    (fun acc (entry : String × List (String × String)) =>
      List.foldl (fun a (p : String × Glove.CharacteristicInfo) =>
        Glove.valueCell entry.2 a p.1 ++ ",") (acc ++ "\n" ++ entry.1 ++ ",") cl)
    (fun entry => "\n" ++ entry.1 ++ "," ++
      strConcat (cl.map (fun p => csvValue entry.2 p.1 ++ ",")))
    (fun acc entry => by
      dsimp only
      rw [hval entry.2]
      simp [String.append_assoc]) lg
  simp only [Glove.printLog]
  rw [hsvc, hname, hunit, hrows]
  simp only [specCSV, sepBy_newline_rows, csvRow_cons, List.map_cons, List.map_map,
    strConcat, Function.comp_def]
  simp [String.append_assoc, String.empty_append,
    show ("Timestamp," : String) = "Timestamp" ++ "," from by decide]

/-- C7 witness: a one-characteristic registry and a one-row log render to
the expected CSV text. -/
theorem c7_witness :
    Glove.printLog [("u1", ⟨"Temperature", "Environmental Sensor", "23.45"⟩)]
        [("u1", ⟨BLE_FORMAT_SINT16, -2, 0x272D⟩)]
        [("2025/01/01 10:00:00", [("u1", "23.45")])] =
      "Timestamp,Environmental Sensor,\n,Temperature,\n,uT,\n2025/01/01 10:00:00,23.45,\n" := by
  have h := c7_printLog_is_specCSV
    [("u1", ⟨"Temperature", "Environmental Sensor", "23.45"⟩)]
    [("u1", ⟨BLE_FORMAT_SINT16, -2, 0x272D⟩)]
    [("2025/01/01 10:00:00", [("u1", "23.45")])] (by decide)
  refine h.trans ?_
  decide

